import Mathlib

/-!
Verification of the stock-insights aggregation service.

The service is a Next.js application.  The two route handlers under
verification are the POST handler for `/api/stock-insights`
(src/unnamed/part_000) and the GET handler for `/api/nse-symbols`
(src/unnamed/part_001).  Percentage helpers `pctFromHigh` / `pctFromLow`
come from `lib/calculations.ts`, whose code is reproduced verbatim in the
repository README (src/app/layout.tsx).

JavaScript strings are modelled as `List Char`; the string operations used
by the handlers (`split`, `trim`, `toUpperCase`, `join`, `Set` dedup) are
embedded below with JS semantics.  JavaScript numbers are modelled as
exact rationals extended with the IEEE special values `NaN` and the two
infinities; float rounding is abstracted away (the formulas under proof
are stated with exact arithmetic in the specification as well).
-/

/-- A JavaScript string, modelled as its list of characters. -/
abbrev JsStr := List Char

/-- Whitespace as recognised by `String.prototype.trim` (ASCII fragment:
space, tab, line feed, carriage return, vertical tab, form feed). -/
def jsIsWs (c : Char) : Bool :=
  c = ' ' || c = '\t' || c = '\n' || c = '\r' || c = '\x0b' || c = '\x0c'

/-- ASCII fragment of `String.prototype.toUpperCase` on one character:
lower-case letters map to upper-case, everything else is unchanged. -/
def jsCharUp (c : Char) : Char :=
  match c with
  | 'a' => 'A' | 'b' => 'B' | 'c' => 'C' | 'd' => 'D' | 'e' => 'E' | 'f' => 'F'
  | 'g' => 'G' | 'h' => 'H' | 'i' => 'I' | 'j' => 'J' | 'k' => 'K' | 'l' => 'L'
  | 'm' => 'M' | 'n' => 'N' | 'o' => 'O' | 'p' => 'P' | 'q' => 'Q' | 'r' => 'R'
  | 's' => 'S' | 't' => 'T' | 'u' => 'U' | 'v' => 'V' | 'w' => 'W' | 'x' => 'X'
  | 'y' => 'Y' | 'z' => 'Z'
  | other => other

/-- `String.prototype.toUpperCase` (ASCII fragment). -/
def jsStrUp (s : JsStr) : JsStr := s.map jsCharUp

/-- `String.prototype.trim`: drop leading and trailing whitespace. -/
def jsTrim (s : JsStr) : JsStr :=
  ((s.dropWhile jsIsWs).reverse.dropWhile jsIsWs).reverse

/-- `String.prototype.split` with a one-character separator.  As in JS,
the empty string splits into `[""]` and separators at the ends produce
empty fields. -/
def jsSplit (sep : Char) : JsStr → List JsStr
  | [] => [[]]
  | c :: cs =>
    if c = sep then [] :: jsSplit sep cs
    else
      match jsSplit sep cs with
      | [] => [[c]]
      | t :: ts => (c :: t) :: ts

/-- `Array.prototype.join` with a one-character separator. -/
def jsJoin (sep : Char) : List JsStr → JsStr
  | [] => []
  | [s] => s
  | s :: rest => s ++ sep :: jsJoin sep rest

/-- One step of JavaScript `Set` insertion: append the element unless it
is already present.  `Array.from(new Set(l))` iterates `l` in order and
yields the insertion order, i.e. first-occurrence order. -/
def jsSetInsert (acc : List JsStr) (s : JsStr) : List JsStr :=
  if s ∈ acc then acc else acc ++ [s]

/-- `Array.from(new Set(l))`: deduplication preserving insertion order. -/
def jsSetDedup (l : List JsStr) : List JsStr := l.foldl jsSetInsert []

/-! ## The POST /api/stock-insights handler (src/unnamed/part_000) -/

/-- The `symbols` field of the parsed request body: absent, a JSON
string, a JSON array of strings, or some other JSON value. -/
inductive SymbolsField where
  | absent
  | str (s : JsStr)
  | arr (l : List JsStr)
  | otherJson
  deriving DecidableEq

/-- Result of `req.json()`: either the body was valid JSON carrying a
`symbols` field as above, or parsing rejected (malformed JSON), in which
case `.catch(() => ({}))` in the handler substitutes the empty object. -/
inductive BodyParse where
  | malformed
  | parsed (symbols : SymbolsField)
  deriving DecidableEq

/-- Lines 11-13 of the handler:
`(Array.isArray(body.symbols) && body.symbols.join(",")) || (typeof body.symbols === "string" ? body.symbols : "")`.
For an array the join is taken unless it is the empty string (falsy), in
which case the right operand applies; the right operand yields the value
itself for a string and `""` otherwise. -/
def rawFromField : SymbolsField → JsStr
  | .str s => s
  | .arr l => if jsJoin ',' l = [] then [] else jsJoin ',' l
  | .absent => []
  | .otherJson => []

/-- Line 10 of the handler: a malformed body is replaced by the empty
object, whose `symbols` field is absent. -/
def rawSymbols : BodyParse → JsStr
  | .malformed => rawFromField .absent
  | .parsed f => rawFromField f

/-- Lines 15-18 of the handler:
`raw.split(",").map(s => s.trim().toUpperCase()).filter(Boolean)`
(the empty string is the only falsy string, so `filter(Boolean)` drops
exactly the empty tokens). -/
def normalizeSymbols (raw : JsStr) : List JsStr :=
  ((jsSplit ',' raw).map fun s => jsStrUp (jsTrim s)).filter fun s => s ≠ []

/-- Line 27 of the handler: `Array.from(new Set(symbols))`. -/
def uniqueSymbols (raw : JsStr) : List JsStr :=
  jsSetDedup (normalizeSymbols raw)

/-- Error message of the 400 response (line 22). -/
def noSymbolsMsg : JsStr := "No symbols provided.".data

/-- Fallback error message of the 500 response (line 48). -/
def genericErrorMsg : JsStr := "Unexpected server error while fetching stock insights.".data

/-! ## JavaScript numbers and the percentage helpers (lib/calculations.ts,
reproduced in src/app/layout.tsx lines 137-149) -/

/-- A JavaScript number: NaN, an infinity, or a finite value (modelled as
an exact rational, abstracting from float rounding). -/
inductive JsNum where
  | nan
  | posInf
  | negInf
  | fin (q : ℚ)
  deriving DecidableEq

/-- JS `isFinite` (on a number argument). -/
def JsNum.isFinite : JsNum → Bool
  | .fin _ => true
  | _ => false

/-- JS subtraction restricted to the value classes the handlers reach:
exact on finite operands, NaN-propagating, infinities as in IEEE. -/
def JsNum.sub : JsNum → JsNum → JsNum
  | .fin a, .fin b => .fin (a - b)
  | .nan, _ => .nan
  | _, .nan => .nan
  | .posInf, .posInf => .nan
  | .negInf, .negInf => .nan
  | .posInf, _ => .posInf
  | .negInf, _ => .negInf
  | .fin _, .posInf => .negInf
  | .fin _, .negInf => .posInf

/-- JS division: exact on finite operands with nonzero divisor;
`x / 0` is NaN for `x = 0` and a signed infinity otherwise. -/
def JsNum.div : JsNum → JsNum → JsNum
  | .fin a, .fin b =>
    if b = 0 then
      if a = 0 then .nan else if a > 0 then .posInf else .negInf
    else .fin (a / b)
  | .nan, _ => .nan
  | _, .nan => .nan
  | .posInf, .fin _ => .posInf
  | .negInf, .fin _ => .negInf
  | .fin _, .posInf => .fin 0
  | .fin _, .negInf => .fin 0
  | _, _ => .nan

/-- JS multiplication, same conventions. -/
def JsNum.mul : JsNum → JsNum → JsNum
  | .fin a, .fin b => .fin (a * b)
  | .nan, _ => .nan
  | _, .nan => .nan
  | .posInf, .posInf => .posInf
  | .posInf, .negInf => .negInf
  | .negInf, .posInf => .negInf
  | .negInf, .negInf => .posInf
  | .posInf, .fin b => if b = 0 then .nan else if b > 0 then .posInf else .negInf
  | .fin a, .posInf => if a = 0 then .nan else if a > 0 then .posInf else .negInf
  | .negInf, .fin b => if b = 0 then .nan else if b > 0 then .negInf else .posInf
  | .fin a, .negInf => if a = 0 then .nan else if a > 0 then .negInf else .posInf

/-- lib/calculations.ts: percentage drift from the 52-week high.
The guard `!isFinite(currentPrice) || !isFinite(high52) || high52 === 0`
returns NaN; otherwise `((currentPrice - high52) / high52) * 100`.
The function is total: there is no division-by-zero exception path. -/
def pctFromHigh (currentPrice high52 : JsNum) : JsNum :=
  if ¬currentPrice.isFinite ∨ ¬high52.isFinite ∨ high52 = .fin 0 then .nan
  else ((currentPrice.sub high52).div high52).mul (.fin 100)

/-- lib/calculations.ts: percentage drift from the 52-week low, with the
same guard using `low52`. -/
def pctFromLow (currentPrice low52 : JsNum) : JsNum :=
  if ¬currentPrice.isFinite ∨ ¬low52.isFinite ∨ low52 = .fin 0 then .nan
  else ((currentPrice.sub low52).div low52).mul (.fin 100)

/-! ## Data model (lib/types.ts, reconstructed from the spec and the
README in src/app/layout.tsx) -/

/-- Market tag derived from the symbol suffix. -/
inductive Market where
  | NSE
  | BSE
  | US
  | UNKNOWN
  deriving DecidableEq

/-- A news headline. -/
structure NewsItem where
  title : JsStr
  source : JsStr
  publishedAt : Int
  url : Option JsStr
  deriving DecidableEq

/-- A bulk/block trade record (never produced by the stub data source). -/
structure BulkDeal where
  date : JsStr
  buyer : JsStr
  seller : JsStr
  quantity : Int
  price : JsNum
  exchange : JsStr
  deriving DecidableEq

/-- The per-symbol output record. -/
structure StockInsight where
  symbol : JsStr
  market : Market
  currentPrice : Option JsNum
  high52 : Option JsNum
  low52 : Option JsNum
  pctFromHigh : Option JsNum
  pctFromLow : Option JsNum
  latestNews : List NewsItem
  bulkDeals : List BulkDeal
  error : Option JsStr
  deriving DecidableEq

/-- Modelled from the spec: market classification (spec section 4.1) lives
in code that is not under src/ (`lib` is absent).  Suffix `.NS` maps to
NSE, `.BSE` or `.BO` to BSE, anything else to the implementation-defined
default, taken here as UNKNOWN. -/
def classifyMarket (symbol : JsStr) : Market :=
  if ".NS".data.IsSuffix symbol then .NSE
  else if ".BSE".data.IsSuffix symbol then .BSE
  else if ".BO".data.IsSuffix symbol then .BSE
  else .UNKNOWN

/-- The price/range fetch result on success. -/
structure PriceRange where
  currentPrice : JsNum
  high52 : JsNum
  low52 : JsNum
  deriving DecidableEq

/-- News ordering used for the top-3 truncation: most recent first. -/
def newsLater (a b : NewsItem) : Prop := b.publishedAt ≤ a.publishedAt

instance : DecidableRel newsLater := fun a b =>
  inferInstanceAs (Decidable (b.publishedAt ≤ a.publishedAt))

instance : IsTotal NewsItem newsLater :=
  ⟨fun a b => (le_total b.publishedAt a.publishedAt).imp id id⟩

instance : IsTrans NewsItem newsLater :=
  ⟨fun _ _ _ h h' => le_trans h' h⟩

/-- Modelled from the spec: `fetchNewsForSymbol` (lib/financeApi.ts is not
under src/).  The provider outcome is either a failure or a raw list of
headlines; a failure degrades to the empty list, a success is truncated
to the 3 most recent by publish time, descending. -/
def fetchNewsForSymbol (outcome : Except JsStr (List NewsItem)) : List NewsItem :=
  match outcome with
  | .error _ => []
  | .ok items => (items.insertionSort newsLater).take 3

/-- Modelled from the spec: `fetchBulkDealsForSymbol` (lib/bulkDeals.ts is
not under src/).  The baseline implementation always returns the empty
list (README: by default this returns an empty array). -/
def fetchBulkDealsForSymbol (_symbol : JsStr) : List BulkDeal := []

/-- Modelled from the spec: `buildStockInsight` (lib/financeApi.ts is not
under src/), spec section 4.4.  On price/range failure the insight carries
the failure message in `error`, all numeric fields null, and the news list
from its own best-effort fetch; on success all numeric fields are set and
the percentages are computed by the calculation helpers. -/
def buildStockInsight (price : Except JsStr PriceRange)
    (news : Except JsStr (List NewsItem)) (symbol : JsStr) : StockInsight :=
  match price with
  | .error msg =>
    { symbol := symbol
      market := classifyMarket symbol
      currentPrice := none
      high52 := none
      low52 := none
      pctFromHigh := none
      pctFromLow := none
      latestNews := fetchNewsForSymbol news
      bulkDeals := []
      error := some msg }
  | .ok pr =>
    { symbol := symbol
      market := classifyMarket symbol
      currentPrice := some pr.currentPrice
      high52 := some pr.high52
      low52 := some pr.low52
      pctFromHigh := some (pctFromHigh pr.currentPrice pr.high52)
      pctFromLow := some (pctFromLow pr.currentPrice pr.low52)
      latestNews := fetchNewsForSymbol news
      bulkDeals := []
      error := none }

/-- Lines 30-33 of the handler: the async closure mapped over the unique
symbols awaits `buildStockInsight` and then overwrites `bulkDeals` with
the bulk-deal fetch.  `price` and `news` are the provider oracles for
this request. -/
def perSymbolTask (price : JsStr → Except JsStr PriceRange)
    (news : JsStr → Except JsStr (List NewsItem)) (symbol : JsStr) : StockInsight :=
  let base := buildStockInsight (price symbol) (news symbol) symbol
  { base with bulkDeals := fetchBulkDealsForSymbol symbol }

/-- A rejection escaping to the handler boundary: the thrown value's
`message` property when it has one (line 47: `err?.message`). -/
abbrev ThrownErr := Option JsStr

/-- `Promise.all` over already-settled outcomes, sequenced in list order:
all fulfilled yields the list of values, otherwise the first rejection
(the model determinizes JS rejection timing by list order). -/
def promiseAll : List (Except ThrownErr StockInsight) → Except ThrownErr (List StockInsight)
  | [] => .ok []
  | .error e :: _ => .error e
  | .ok a :: rest =>
    match promiseAll rest with
    | .ok as => .ok (a :: as)
    | .error e => .error e

/-- Observable outcome of one POST /api/stock-insights request: HTTP
status, the `error` field of the JSON body (if any), the `results` field
(empty unless the status is 200), and the list of symbols for which the
per-symbol provider pipeline was started. -/
structure HandlerResult where
  status : Nat
  error : Option JsStr
  results : List StockInsight
  providerCalls : List JsStr
  deriving DecidableEq

/-- Lines 15-52 of the handler, from the extracted raw symbols string on,
parameterized by the per-symbol task (the async closure of lines 30-34;
`Except.error` models the closure's promise rejecting).  The empty
normalized list returns 400 before any provider work; otherwise the
unique symbols are fanned out, a rejection reaches the catch block of
lines 42-52 (status 500, `err?.message ?? generic`), and success returns
200 with one insight per unique symbol. -/
def handleRaw (raw : JsStr)
    (task : JsStr → Except ThrownErr StockInsight) : HandlerResult :=
  let symbols := normalizeSymbols raw
  if symbols = [] then
    { status := 400, error := some noSymbolsMsg, results := [], providerCalls := [] }
  else
    let unique := jsSetDedup symbols
    match promiseAll (unique.map task) with
    | .ok insights =>
      { status := 200, error := none, results := insights, providerCalls := unique }
    | .error e =>
      { status := 500, error := some (e.getD genericErrorMsg), results := [],
        providerCalls := unique }

/-- The POST /api/stock-insights handler (src/unnamed/part_000 lines
8-53): body-field extraction followed by the symbols pipeline. -/
def handlePost (body : BodyParse)
    (task : JsStr → Except ThrownErr StockInsight) : HandlerResult :=
  handleRaw (rawSymbols body) task

/-- The whole request pipeline with the spec-modelled providers plugged
in: the per-symbol closure never rejects, because `buildStockInsight`
captures price failures per symbol and news/bulk-deal fetches degrade. -/
def handlePostWithProviders (body : BodyParse)
    (price : JsStr → Except JsStr PriceRange)
    (news : JsStr → Except JsStr (List NewsItem)) : HandlerResult :=
  handlePost body (fun symbol => .ok (perSymbolTask price news symbol))

/-! ## The GET /api/nse-symbols handler (src/unnamed/part_001 lines 9-29) -/

/-- Observable outcome of one GET /api/nse-symbols request. -/
structure SymbolsResult where
  status : Nat
  error : Option JsStr
  symbols : List JsStr
  deriving DecidableEq

/-- Error message of the 500 response (part_001 line 25). -/
def symbolsLoadErrMsg : JsStr := "Failed to load stock symbols".data

/-- Symbol extraction from the reference file content (part_001 lines
15-19): trim the whole content, split into lines, skip the header row,
trim each line, drop empty lines, upper-case. -/
def parseSymbolsCsv (content : JsStr) : List JsStr :=
  let lines := jsSplit '\n' (jsTrim content)
  (((lines.drop 1).map jsTrim).filter fun line => line ≠ []).map jsStrUp

/-- The GET /api/nse-symbols handler.  `file` is the outcome of
`readFileSync`: `Except.error` models the read throwing (file missing or
unreadable), which is the only way into the catch block. -/
def handleGetSymbols (file : Except Unit JsStr) : SymbolsResult :=
  match file with
  | .ok content =>
    { status := 200, error := none, symbols := parseSymbolsCsv content }
  | .error _ =>
    { status := 500, error := some symbolsLoadErrMsg, symbols := [] }

/-! ## Specification-worded companion definitions and concrete fixtures -/

/-- Deduplication keeping the first occurrence of each element, written
the way the spec words it: keep the head, drop its later duplicates,
recurse.  This is the definition `jsSetDedup` is compared against. -/
def dedupFirstOcc : List JsStr → List JsStr
  | [] => []
  | x :: xs => x :: dedupFirstOcc (xs.filter fun y => decide (y ≠ x))
termination_by l => l.length
decreasing_by
  simp only [List.length_cons]
  exact Nat.lt_succ_of_le (List.length_filter_le _ _)

/-- Fixture: a price oracle that fails for symbol X and succeeds for
every other symbol. -/
def exPrice : JsStr → Except JsStr PriceRange := fun s =>
  if s = "X".data then .error "provider down".data
  else .ok { currentPrice := .fin 10, high52 := .fin 20, low52 := .fin 5 }

/-- Fixture: a news oracle returning four headlines out of order. -/
def exNews : JsStr → Except JsStr (List NewsItem) := fun _ =>
  .ok [{ title := "n1".data, source := "w".data, publishedAt := 3, url := none },
       { title := "n2".data, source := "w".data, publishedAt := 9, url := none },
       { title := "n3".data, source := "w".data, publishedAt := 1, url := none },
       { title := "n4".data, source := "w".data, publishedAt := 7, url := none }]

/-- Fixture: a per-symbol task whose promise rejects with a
provider-internal message. -/
def exRejectingTask : JsStr → Except ThrownErr StockInsight := fun _ =>
  .error (some "ECONNRESET upstream provider".data)

/-! ## Helper lemmas on the string model -/

theorem jsCharUp_ws (c : Char) : jsIsWs (jsCharUp c) = jsIsWs c := by
  unfold jsCharUp
  split <;> rfl

theorem jsCharUp_shape (c : Char) :
    jsCharUp c = c ∨ jsCharUp c ∈
      (['A', 'B', 'C', 'D', 'E', 'F', 'G', 'H', 'I', 'J', 'K', 'L', 'M',
        'N', 'O', 'P', 'Q', 'R', 'S', 'T', 'U', 'V', 'W', 'X', 'Y', 'Z'] : List Char) := by
  unfold jsCharUp
  split <;> first | (left; rfl) | (right; decide)

theorem jsCharUp_idem (c : Char) : jsCharUp (jsCharUp c) = jsCharUp c := by
  rcases jsCharUp_shape c with h | h
  · rw [h]; exact h
  · simp only [List.mem_cons, List.not_mem_nil, or_false] at h
    rcases h with h|h|h|h|h|h|h|h|h|h|h|h|h|h|h|h|h|h|h|h|h|h|h|h|h|h <;>
      rw [h] <;> decide

theorem jsStrUp_idem (s : JsStr) : jsStrUp (jsStrUp s) = jsStrUp s := by
  unfold jsStrUp
  rw [List.map_map]
  exact List.map_congr_left fun c _ => jsCharUp_idem c

theorem dropWhile_head_false {α : Type} (p : α → Bool) :
    ∀ (l : List α) (c : α) (t : List α), l.dropWhile p = c :: t → p c = false := by
  intro l
  induction l with
  | nil => intro c t h; cases h
  | cons a l ih =>
    intro c t h
    by_cases ha : p a
    · rw [List.dropWhile_cons_of_pos ha] at h
      exact ih c t h
    · rw [List.dropWhile_cons_of_neg ha] at h
      cases h
      simpa using ha

theorem dropWhile_eq_self_of_head {α : Type} (p : α → Bool) (l : List α)
    (h : ∀ c t, l = c :: t → p c = false) : l.dropWhile p = l := by
  cases l with
  | nil => rfl
  | cons a t => exact List.dropWhile_cons_of_neg (by simp [h a t rfl])

theorem dropWhile_dropWhile {α : Type} (p : α → Bool) (l : List α) :
    (l.dropWhile p).dropWhile p = l.dropWhile p :=
  dropWhile_eq_self_of_head p _ fun c t h => dropWhile_head_false p l c t h

theorem jsTrim_dropWhile (l : JsStr) : (jsTrim l).dropWhile jsIsWs = jsTrim l := by
  apply dropWhile_eq_self_of_head
  intro c t h
  unfold jsTrim at h
  have hsplit :=
    (List.takeWhile_append_dropWhile jsIsWs (l.dropWhile jsIsWs).reverse).symm
  have h2 := congrArg List.reverse hsplit
  rw [List.reverse_reverse, List.reverse_append, h] at h2
  exact dropWhile_head_false jsIsWs l c _ (by simpa using h2)

theorem jsTrim_reverse_dropWhile (l : JsStr) :
    (jsTrim l).reverse.dropWhile jsIsWs = (jsTrim l).reverse := by
  unfold jsTrim
  rw [List.reverse_reverse]
  exact dropWhile_dropWhile _ _

theorem jsTrim_idem (l : JsStr) : jsTrim (jsTrim l) = jsTrim l := by
  conv_lhs => rw [jsTrim]
  rw [jsTrim_dropWhile, jsTrim_reverse_dropWhile, List.reverse_reverse]

theorem jsStrUp_dropWhile (l : JsStr) :
    (jsStrUp l).dropWhile jsIsWs = jsStrUp (l.dropWhile jsIsWs) := by
  unfold jsStrUp
  have hws : (jsIsWs ∘ jsCharUp) = jsIsWs := funext fun c => jsCharUp_ws c
  rw [List.dropWhile_map, hws]

theorem jsStrUp_reverse (l : JsStr) : (jsStrUp l).reverse = jsStrUp l.reverse := by
  unfold jsStrUp
  exact (List.map_reverse _ _).symm

theorem jsTrim_jsStrUp (s : JsStr) : jsTrim (jsStrUp s) = jsStrUp (jsTrim s) := by
  unfold jsTrim
  rw [jsStrUp_dropWhile, jsStrUp_reverse, jsStrUp_dropWhile, jsStrUp_reverse]

theorem dedupFirstOcc_cons (x : JsStr) (xs : List JsStr) :
    dedupFirstOcc (x :: xs) = x :: dedupFirstOcc (xs.filter fun y => decide (y ≠ x)) := by
  rw [dedupFirstOcc]

theorem foldl_jsSetInsert_eq (l : List JsStr) :
    ∀ acc : List JsStr,
      l.foldl jsSetInsert acc = acc ++ dedupFirstOcc (l.filter fun x => decide (x ∉ acc)) := by
  induction l with
  | nil => intro acc; simp [dedupFirstOcc]
  | cons x xs ih =>
    intro acc
    rw [List.foldl_cons, ih]
    unfold jsSetInsert
    by_cases hx : x ∈ acc
    · rw [if_pos hx, List.filter_cons]
      have hdec : decide (x ∉ acc) = false := by simp [hx]
      rw [hdec]
      simp only [Bool.false_eq_true, if_false]
    · rw [if_neg hx, List.filter_cons]
      have hdec : decide (x ∉ acc) = true := by simp [hx]
      rw [hdec]
      simp only [if_true]
      rw [dedupFirstOcc_cons, List.append_assoc, List.singleton_append]
      congr 2
      rw [List.filter_filter]
      apply congrArg
      apply List.filter_congr
      intro y _
      by_cases h1 : y ∈ acc <;> by_cases h2 : y = x <;>
        simp [h1, h2, List.mem_append]

theorem jsSetDedup_eq_dedupFirstOcc (l : List JsStr) :
    jsSetDedup l = dedupFirstOcc l := by
  unfold jsSetDedup
  rw [foldl_jsSetInsert_eq]
  simp

theorem nodup_foldl_jsSetInsert (l : List JsStr) :
    ∀ acc : List JsStr, acc.Nodup → (l.foldl jsSetInsert acc).Nodup := by
  induction l with
  | nil => intro acc h; exact h
  | cons x xs ih =>
    intro acc h
    rw [List.foldl_cons]
    apply ih
    unfold jsSetInsert
    by_cases hx : x ∈ acc
    · rw [if_pos hx]; exact h
    · rw [if_neg hx]
      simp [List.nodup_append, h, hx]

theorem jsSetDedup_nodup (l : List JsStr) : (jsSetDedup l).Nodup :=
  nodup_foldl_jsSetInsert l [] List.nodup_nil

theorem mem_foldl_jsSetInsert (l : List JsStr) :
    ∀ (acc : List JsStr) (x : JsStr),
      x ∈ l.foldl jsSetInsert acc ↔ x ∈ acc ∨ x ∈ l := by
  induction l with
  | nil => intro acc x; simp
  | cons a l ih =>
    intro acc x
    rw [List.foldl_cons, ih]
    unfold jsSetInsert
    by_cases ha : a ∈ acc
    · rw [if_pos ha]
      simp only [List.mem_cons]
      constructor
      · rintro (h | h)
        · exact Or.inl h
        · exact Or.inr (Or.inr h)
      · rintro (h | h | h)
        · exact Or.inl h
        · exact Or.inl (h ▸ ha)
        · exact Or.inr h
    · rw [if_neg ha]
      simp only [List.mem_append, List.mem_singleton, List.mem_cons]
      tauto

theorem mem_jsSetDedup (l : List JsStr) (x : JsStr) :
    x ∈ jsSetDedup l ↔ x ∈ l := by
  unfold jsSetDedup
  rw [mem_foldl_jsSetInsert]
  simp

theorem jsSplit_chars (sep : Char) :
    ∀ (s : JsStr), ∀ t ∈ jsSplit sep s, ∀ c ∈ t, c ∈ s := by
  intro s
  induction s with
  | nil =>
    intro t ht c hc
    unfold jsSplit at ht
    simp only [List.mem_singleton] at ht
    subst ht
    cases hc
  | cons a s ih =>
    intro t ht c hc
    unfold jsSplit at ht
    by_cases ha : a = sep
    · rw [if_pos ha] at ht
      rcases List.mem_cons.mp ht with h | h
      · subst h; cases hc
      · exact List.mem_cons_of_mem _ (ih t h c hc)
    · rw [if_neg ha] at ht
      rcases hsp : jsSplit sep s with _ | ⟨t0, ts⟩
      · rw [hsp] at ht
        simp only [List.mem_singleton] at ht
        subst ht
        rcases List.mem_singleton.mp hc with rfl
        exact List.mem_cons_self _ _
      · rw [hsp] at ht
        rcases List.mem_cons.mp ht with h | h
        · subst h
          rcases List.mem_cons.mp hc with rfl | h
          · exact List.mem_cons_self _ _
          · exact List.mem_cons_of_mem _ (ih t0 (hsp ▸ List.mem_cons_self t0 ts) c h)
        · exact List.mem_cons_of_mem _ (ih t (hsp ▸ List.mem_cons_of_mem t0 h) c hc)

theorem jsTrim_eq_nil_of_all_ws (l : JsStr) (h : ∀ c ∈ l, jsIsWs c = true) :
    jsTrim l = [] := by
  unfold jsTrim
  rw [List.dropWhile_eq_nil_iff.mpr h]
  rfl

theorem normalizeSymbols_eq_nil (raw : JsStr)
    (h : ∀ t ∈ jsSplit ',' raw, jsTrim t = []) : normalizeSymbols raw = [] := by
  unfold normalizeSymbols
  rw [List.filter_eq_nil_iff]
  intro a ha
  rcases List.mem_map.mp ha with ⟨t, ht, rfl⟩
  rw [h t ht]
  simp [jsStrUp]

theorem normalizeSymbols_eq_nil_of_all_ws (raw : JsStr)
    (h : ∀ c ∈ raw, jsIsWs c = true) : normalizeSymbols raw = [] := by
  apply normalizeSymbols_eq_nil
  intro t ht
  exact jsTrim_eq_nil_of_all_ws t fun c hc => h c (jsSplit_chars ',' raw t ht c hc)

theorem normalizeSymbols_mem (raw x : JsStr) (hx : x ∈ normalizeSymbols raw) :
    x ≠ [] ∧ jsStrUp x = x ∧ jsTrim x = x := by
  unfold normalizeSymbols at hx
  obtain ⟨hmem, hne⟩ := List.mem_filter.mp hx
  obtain ⟨t, _, rfl⟩ := List.mem_map.mp hmem
  refine ⟨by simpa using hne, jsStrUp_idem _, ?_⟩
  rw [jsTrim_jsStrUp, jsTrim_idem]

theorem promiseAll_map_ok (f : JsStr → StockInsight) (l : List JsStr) :
    promiseAll (l.map fun s => .ok (f s)) = .ok (l.map f) := by
  induction l with
  | nil => rfl
  | cons a l ih => simp [promiseAll, ih]

theorem perSymbolTask_symbol (price : JsStr → Except JsStr PriceRange)
    (news : JsStr → Except JsStr (List NewsItem)) (s : JsStr) :
    (perSymbolTask price news s).symbol = s := by
  unfold perSymbolTask buildStockInsight
  cases price s <;> rfl

theorem perSymbolTask_latestNews (price : JsStr → Except JsStr PriceRange)
    (news : JsStr → Except JsStr (List NewsItem)) (s : JsStr) :
    (perSymbolTask price news s).latestNews = fetchNewsForSymbol (news s) := by
  unfold perSymbolTask buildStockInsight
  cases price s <;> rfl

theorem handleRaw_of_ne (raw : JsStr) (task : JsStr → Except ThrownErr StockInsight)
    (h : normalizeSymbols raw ≠ []) :
    handleRaw raw task =
      match promiseAll ((jsSetDedup (normalizeSymbols raw)).map task) with
      | .ok insights =>
        { status := 200, error := none, results := insights,
          providerCalls := jsSetDedup (normalizeSymbols raw) }
      | .error e =>
        { status := 500, error := some (e.getD genericErrorMsg), results := [],
          providerCalls := jsSetDedup (normalizeSymbols raw) } := by
  unfold handleRaw
  rw [if_neg h]

theorem handlePostWithProviders_of_ne (body : BodyParse)
    (price : JsStr → Except JsStr PriceRange)
    (news : JsStr → Except JsStr (List NewsItem))
    (h : normalizeSymbols (rawSymbols body) ≠ []) :
    handlePostWithProviders body price news =
      { status := 200, error := none,
        results := (uniqueSymbols (rawSymbols body)).map (perSymbolTask price news),
        providerCalls := uniqueSymbols (rawSymbols body) } := by
  unfold handlePostWithProviders handlePost uniqueSymbols
  rw [handleRaw_of_ne _ _ h, promiseAll_map_ok]

theorem handleRaw_providerCalls (raw : JsStr)
    (task : JsStr → Except ThrownErr StockInsight)
    (h : normalizeSymbols raw ≠ []) :
    (handleRaw raw task).providerCalls = jsSetDedup (normalizeSymbols raw) := by
  rw [handleRaw_of_ne raw task h]
  cases hp : promiseAll ((jsSetDedup (normalizeSymbols raw)).map task) with
  | ok a => rfl
  | error e => rfl

theorem fetchNewsForSymbol_length (o : Except JsStr (List NewsItem)) :
    (fetchNewsForSymbol o).length ≤ 3 := by
  cases o with
  | error e => simp [fetchNewsForSymbol]
  | ok items =>
    unfold fetchNewsForSymbol
    rw [List.length_take]
    exact min_le_left _ _

theorem fetchNewsForSymbol_sorted (o : Except JsStr (List NewsItem)) :
    (fetchNewsForSymbol o).Sorted newsLater := by
  cases o with
  | error e => exact List.sorted_nil
  | ok items =>
    exact List.Pairwise.sublist (List.take_sublist 3 _)
      (List.sorted_insertionSort newsLater items)

/-! ## Claim theorems -/

/-- C4: for finite inputs with nonzero denominator, `pctFromHigh` and
`pctFromLow` compute exactly ((currentPrice - x) / x) * 100; when the
denominator is zero, or any input (in particular the denominator) is
non-finite, both functions return the NaN sentinel.  Both are total Lean
functions, so no division-by-zero exception is possible. -/
theorem pct_functions_spec :
    (∀ p h : ℚ, h ≠ 0 →
        pctFromHigh (.fin p) (.fin h) = .fin ((p - h) / h * 100)
        ∧ pctFromLow (.fin p) (.fin h) = .fin ((p - h) / h * 100))
    ∧ ∀ x y : JsNum, (¬x.isFinite ∨ ¬y.isFinite ∨ y = .fin 0) →
        pctFromHigh x y = .nan ∧ pctFromLow x y = .nan := by
  constructor
  · intro p h hh
    constructor
    · unfold pctFromHigh
      rw [if_neg (by simp [JsNum.isFinite, hh])]
      simp [JsNum.sub, JsNum.div, JsNum.mul, hh]
    · unfold pctFromLow
      rw [if_neg (by simp [JsNum.isFinite, hh])]
      simp [JsNum.sub, JsNum.div, JsNum.mul, hh]
  · intro x y hxy
    constructor
    · unfold pctFromHigh
      rw [if_pos hxy]
    · unfold pctFromLow
      rw [if_pos hxy]

/-- Witness for C4: the formula branch at (2, 4) and the sentinel branch
at denominator zero. -/
theorem pct_functions_spec_witness :
    (pctFromHigh (.fin 2) (.fin 4) = .fin ((2 - 4) / 4 * 100)
      ∧ pctFromLow (.fin 2) (.fin 4) = .fin ((2 - 4) / 4 * 100))
    ∧ pctFromHigh (.fin 1) (.fin 0) = .nan ∧ pctFromLow (.fin 1) (.fin 0) = .nan :=
  ⟨pct_functions_spec.1 2 4 (by norm_num),
   pct_functions_spec.2 (.fin 1) (.fin 0) (Or.inr (Or.inr rfl))⟩

/-- C3: the handler's symbol normalization (split on commas, trim,
upper-case, drop empty tokens, then JS-Set deduplicate) equals
first-occurrence deduplication of the token stream, is duplicate-free,
produces only nonempty fully-upper-cased fully-trimmed symbols, and maps
the input "tcs, TCS, Infy " to ["TCS", "INFY"]. -/
theorem normalization_spec :
    (∀ raw : JsStr,
        uniqueSymbols raw = dedupFirstOcc (normalizeSymbols raw)
        ∧ (uniqueSymbols raw).Nodup
        ∧ ∀ x ∈ uniqueSymbols raw, x ≠ [] ∧ jsStrUp x = x ∧ jsTrim x = x)
    ∧ uniqueSymbols "tcs, TCS, Infy ".data = ["TCS".data, "INFY".data] := by
  constructor
  · intro raw
    refine ⟨jsSetDedup_eq_dedupFirstOcc _, jsSetDedup_nodup _, ?_⟩
    intro x hx
    exact normalizeSymbols_mem raw x ((mem_jsSetDedup _ _).mp hx)
  · decide

/-- Witness for C3 at the concrete input from the spec. -/
theorem normalization_spec_witness :
    uniqueSymbols "tcs, TCS, Infy ".data
      = dedupFirstOcc (normalizeSymbols "tcs, TCS, Infy ".data)
    ∧ (uniqueSymbols "tcs, TCS, Infy ".data).Nodup :=
  ⟨(normalization_spec.1 "tcs, TCS, Infy ".data).1,
   (normalization_spec.1 "tcs, TCS, Infy ".data).2.1⟩

/-- C5: a symbols string that is empty, all-whitespace, or whose
comma-separated tokens all trim to empty makes the handler answer HTTP
400 with the message "No symbols provided." and start no provider
call. -/
theorem empty_input_rejected_without_provider_calls :
    ∀ (s : JsStr) (task : JsStr → Except ThrownErr StockInsight),
      ((∀ c ∈ s, jsIsWs c = true) ∨ ∀ t ∈ jsSplit ',' s, jsTrim t = []) →
      handlePost (.parsed (.str s)) task
        = { status := 400, error := some noSymbolsMsg, results := [],
            providerCalls := [] } := by
  intro s task h
  have hnil : normalizeSymbols s = [] := by
    rcases h with h | h
    · exact normalizeSymbols_eq_nil_of_all_ws s h
    · exact normalizeSymbols_eq_nil s h
  unfold handlePost handleRaw
  have hraw : rawSymbols (.parsed (.str s)) = s := rfl
  rw [hraw, hnil, if_pos rfl]

/-- Witness for C5 at a whitespace-and-commas input. -/
theorem empty_input_rejected_without_provider_calls_witness :
    handlePost (.parsed (.str " , ".data)) exRejectingTask
      = { status := 400, error := some noSymbolsMsg, results := [],
          providerCalls := [] } :=
  empty_input_rejected_without_provider_calls " , ".data exRejectingTask
    (Or.inr (by decide))

/-- C9: an array body behaves exactly like the string body obtained by
joining its elements with commas, so an array element that itself
contains a comma is split into several symbols: the single-element array
with "A,B" fans out provider calls for the two symbols A and B. -/
theorem array_input_equiv_joined_string :
    (∀ (xs : List JsStr) (task : JsStr → Except ThrownErr StockInsight),
        handlePost (.parsed (.arr xs)) task
          = handlePost (.parsed (.str (jsJoin ',' xs))) task)
    ∧ ∀ task : JsStr → Except ThrownErr StockInsight,
        (handlePost (.parsed (.arr ["A,B".data])) task).providerCalls
          = ["A".data, "B".data] := by
  constructor
  · intro xs task
    have hraw : rawSymbols (.parsed (.arr xs))
        = rawSymbols (.parsed (.str (jsJoin ',' xs))) := by
      show (if jsJoin ',' xs = [] then ([] : JsStr) else jsJoin ',' xs) = jsJoin ',' xs
      by_cases hj : jsJoin ',' xs = []
      · rw [if_pos hj, hj]
      · rw [if_neg hj]
    exact congrArg (fun r => handleRaw r task) hraw
  · intro task
    have hpc := handleRaw_providerCalls
      (rawSymbols (.parsed (.arr ["A,B".data]))) task (by decide)
    unfold handlePost
    rw [hpc]
    decide

/-- C6: for every body whose normalization is non-empty, the response is
HTTP 200 and its results list exactly one insight per unique normalized
symbol, keyed by that symbol, in first-seen order; in particular the
input "RELIANCE.NS, TCS.NS" yields exactly the two insights keyed
"RELIANCE.NS" and "TCS.NS" in that order, suffixes intact. -/
theorem results_one_per_unique_symbol :
    (∀ (body : BodyParse) (price : JsStr → Except JsStr PriceRange)
        (news : JsStr → Except JsStr (List NewsItem)),
        normalizeSymbols (rawSymbols body) ≠ [] →
        (handlePostWithProviders body price news).status = 200
        ∧ (handlePostWithProviders body price news).results.map StockInsight.symbol
            = uniqueSymbols (rawSymbols body))
    ∧ ∀ (price : JsStr → Except JsStr PriceRange)
        (news : JsStr → Except JsStr (List NewsItem)),
        (handlePostWithProviders (.parsed (.str "RELIANCE.NS, TCS.NS".data)) price
              news).results.map StockInsight.symbol
          = ["RELIANCE.NS".data, "TCS.NS".data] := by
  have hmain : ∀ (body : BodyParse) (price : JsStr → Except JsStr PriceRange)
      (news : JsStr → Except JsStr (List NewsItem)),
      normalizeSymbols (rawSymbols body) ≠ [] →
      (handlePostWithProviders body price news).status = 200
      ∧ (handlePostWithProviders body price news).results.map StockInsight.symbol
          = uniqueSymbols (rawSymbols body) := by
    intro body price news h
    rw [handlePostWithProviders_of_ne body price news h]
    refine ⟨rfl, ?_⟩
    rw [List.map_map]
    have hcomp : (StockInsight.symbol ∘ perSymbolTask price news) = fun s => s :=
      funext fun s => perSymbolTask_symbol price news s
    rw [hcomp, List.map_id']
  refine ⟨hmain, ?_⟩
  intro price news
  rw [(hmain (.parsed (.str "RELIANCE.NS, TCS.NS".data)) price news (by decide)).2]
  decide

/-- Witness for C6 at the concrete input and the fixture oracles. -/
theorem results_one_per_unique_symbol_witness :
    (handlePostWithProviders (.parsed (.str "RELIANCE.NS, TCS.NS".data)) exPrice
        exNews).status = 200
    ∧ (handlePostWithProviders (.parsed (.str "RELIANCE.NS, TCS.NS".data)) exPrice
          exNews).results.map StockInsight.symbol
        = uniqueSymbols (rawSymbols (.parsed (.str "RELIANCE.NS, TCS.NS".data))) :=
  results_one_per_unique_symbol.1 (.parsed (.str "RELIANCE.NS, TCS.NS".data))
    exPrice exNews (by decide)

/-- C1: with the spec-modelled aggregator plugged in, every non-empty
batch answers 200 carrying the per-symbol record of every unique symbol
(a price failure for one symbol never aborts the batch); the record of a
symbol whose price fetch failed carries the failure message with all
numeric fields null while its news list still comes from its own fetch,
and the record of a succeeding symbol is fully populated. -/
theorem batch_isolates_provider_failures :
    ∀ (body : BodyParse) (price : JsStr → Except JsStr PriceRange)
      (news : JsStr → Except JsStr (List NewsItem)),
      normalizeSymbols (rawSymbols body) ≠ [] →
      ((handlePostWithProviders body price news).status = 200
        ∧ (handlePostWithProviders body price news).results
            = (uniqueSymbols (rawSymbols body)).map (perSymbolTask price news))
      ∧ (∀ x msg, price x = .error msg →
          perSymbolTask price news x
            = { symbol := x, market := classifyMarket x,
                currentPrice := none, high52 := none, low52 := none,
                pctFromHigh := none, pctFromLow := none,
                latestNews := fetchNewsForSymbol (news x), bulkDeals := [],
                error := some msg })
      ∧ ∀ y pr, price y = .ok pr →
          perSymbolTask price news y
            = { symbol := y, market := classifyMarket y,
                currentPrice := some pr.currentPrice, high52 := some pr.high52,
                low52 := some pr.low52,
                pctFromHigh := some (pctFromHigh pr.currentPrice pr.high52),
                pctFromLow := some (pctFromLow pr.currentPrice pr.low52),
                latestNews := fetchNewsForSymbol (news y), bulkDeals := [],
                error := none } := by
  intro body price news h
  refine ⟨?_, ?_, ?_⟩
  · rw [handlePostWithProviders_of_ne body price news h]
    exact ⟨rfl, rfl⟩
  · intro x msg hx
    unfold perSymbolTask buildStockInsight
    rw [hx]
    rfl
  · intro y pr hy
    unfold perSymbolTask buildStockInsight
    rw [hy]
    rfl

/-- Witness for C1: a two-symbol batch where the price fetch fails for X
and succeeds for Y. -/
theorem batch_isolates_provider_failures_witness :
    (handlePostWithProviders (.parsed (.str "X, Y".data)) exPrice exNews).status = 200
    ∧ perSymbolTask exPrice exNews "X".data
        = { symbol := "X".data, market := classifyMarket "X".data,
            currentPrice := none, high52 := none, low52 := none,
            pctFromHigh := none, pctFromLow := none,
            latestNews := fetchNewsForSymbol (exNews "X".data), bulkDeals := [],
            error := some "provider down".data }
    ∧ perSymbolTask exPrice exNews "Y".data
        = { symbol := "Y".data, market := classifyMarket "Y".data,
            currentPrice := some (JsNum.fin 10), high52 := some (JsNum.fin 20),
            low52 := some (JsNum.fin 5),
            pctFromHigh := some (pctFromHigh (JsNum.fin 10) (JsNum.fin 20)),
            pctFromLow := some (pctFromLow (JsNum.fin 10) (JsNum.fin 5)),
            latestNews := fetchNewsForSymbol (exNews "Y".data), bulkDeals := [],
            error := none } :=
  ⟨((batch_isolates_provider_failures (.parsed (.str "X, Y".data)) exPrice exNews
      (by decide)).1).1,
   (batch_isolates_provider_failures (.parsed (.str "X, Y".data)) exPrice exNews
      (by decide)).2.1 "X".data "provider down".data rfl,
   (batch_isolates_provider_failures (.parsed (.str "X, Y".data)) exPrice exNews
      (by decide)).2.2 "Y".data
      { currentPrice := JsNum.fin 10, high52 := JsNum.fin 20, low52 := JsNum.fin 5 } rfl⟩

/-- C2 counterexample: a request body that is not valid JSON does not
produce HTTP 500 — the handler's `.catch` fallback turns it into the
empty object and the response is HTTP 400. -/
theorem malformed_body_yields_400_not_500 :
    (handlePost .malformed exRejectingTask).status = 400
    ∧ (handlePost .malformed exRejectingTask).status ≠ 500 := by
  decide

/-- C2 amended: a request whose body is not valid JSON is coerced to the
empty object and rejected with HTTP 400 ("No symbols provided.") without
provider calls; an exception that does escape to the handler boundary
yields HTTP 500 whose error message is the exception's own message when
it has one — echoed to the client — with the generic message used only
when the exception carries no message. -/
theorem handler_boundary_behavior :
    (∀ task : JsStr → Except ThrownErr StockInsight,
        handlePost .malformed task
          = { status := 400, error := some noSymbolsMsg, results := [],
              providerCalls := [] })
    ∧ ∀ (body : BodyParse) (task : JsStr → Except ThrownErr StockInsight)
        (e : ThrownErr),
        normalizeSymbols (rawSymbols body) ≠ [] →
        promiseAll ((uniqueSymbols (rawSymbols body)).map task) = .error e →
        handlePost body task
          = { status := 500, error := some (e.getD genericErrorMsg), results := [],
              providerCalls := uniqueSymbols (rawSymbols body) } := by
  constructor
  · intro task
    rfl
  · intro body task e h he
    unfold handlePost
    rw [handleRaw_of_ne _ _ h]
    unfold uniqueSymbols at he
    rw [he]
    rfl

/-- Witness for C2 (amended): the malformed-body 400, and a rejecting
per-symbol task whose internal message is echoed in the 500 response. -/
theorem handler_boundary_behavior_witness :
    handlePost .malformed exRejectingTask
      = { status := 400, error := some noSymbolsMsg, results := [],
          providerCalls := [] }
    ∧ handlePost (.parsed (.str "A".data)) exRejectingTask
      = { status := 500, error := some "ECONNRESET upstream provider".data,
          results := [], providerCalls := ["A".data] } :=
  ⟨handler_boundary_behavior.1 exRejectingTask,
   (handler_boundary_behavior.2 (.parsed (.str "A".data)) exRejectingTask
      (some "ECONNRESET upstream provider".data) (by decide) rfl).trans (by decide)⟩

/-- C8: every insight in a response of the full pipeline carries at most
3 headlines (hence between 0 and 3), sorted by publish time descending,
because the news fetch truncates to the 3 most recent. -/
theorem latest_news_bounded_sorted :
    ∀ (body : BodyParse) (price : JsStr → Except JsStr PriceRange)
      (news : JsStr → Except JsStr (List NewsItem)),
      ∀ ins ∈ (handlePostWithProviders body price news).results,
        ins.latestNews.length ≤ 3 ∧ ins.latestNews.Sorted newsLater := by
  intro body price news ins hins
  by_cases h : normalizeSymbols (rawSymbols body) = []
  · exfalso
    unfold handlePostWithProviders handlePost handleRaw at hins
    rw [if_pos h] at hins
    simp at hins
  · rw [handlePostWithProviders_of_ne body price news h] at hins
    rcases List.mem_map.mp hins with ⟨s, _, rfl⟩
    rw [perSymbolTask_latestNews]
    exact ⟨fetchNewsForSymbol_length _, fetchNewsForSymbol_sorted _⟩

/-- Witness for C8: the one insight of a concrete single-symbol batch
whose news oracle supplies four out-of-order headlines. -/
theorem latest_news_bounded_sorted_witness :
    (perSymbolTask exPrice exNews "Y".data).latestNews.length ≤ 3
    ∧ (perSymbolTask exPrice exNews "Y".data).latestNews.Sorted newsLater :=
  latest_news_bounded_sorted (.parsed (.str "Y".data)) exPrice exNews
    (perSymbolTask exPrice exNews "Y".data) (by
      rw [handlePostWithProviders_of_ne (.parsed (.str "Y".data)) exPrice exNews
        (by decide)]
      have hu : uniqueSymbols (rawSymbols (.parsed (.str "Y".data))) = ["Y".data] := by
        decide
      rw [hu]
      simp)

/-- C7: when the reference file is readable the endpoint answers 200 with
the header row skipped and the remaining non-empty lines trimmed and
upper-cased (every returned symbol is nonempty, fixed by upper-casing,
and derived from a line after the header); when reading throws it
answers 500 with the load-failure message and an empty list; concretely
a header plus two entry lines yields the two entries upper-cased. -/
theorem get_symbols_endpoint_spec :
    (∀ content : JsStr,
        handleGetSymbols (.ok content)
          = { status := 200, error := none, symbols := parseSymbolsCsv content }
        ∧ ∀ x ∈ parseSymbolsCsv content,
            x ≠ [] ∧ jsStrUp x = x
            ∧ ∃ line ∈ (jsSplit '\n' (jsTrim content)).drop 1,
                x = jsStrUp (jsTrim line))
    ∧ handleGetSymbols (.error ())
        = { status := 500, error := some symbolsLoadErrMsg, symbols := [] }
    ∧ handleGetSymbols (.ok "Symbol\nreliance\ntcs ".data)
        = { status := 200, error := none,
            symbols := ["RELIANCE".data, "TCS".data] } := by
  refine ⟨?_, rfl, by decide⟩
  intro content
  refine ⟨rfl, ?_⟩
  intro x hx
  unfold parseSymbolsCsv at hx
  obtain ⟨y, hy, rfl⟩ := List.mem_map.mp hx
  obtain ⟨hy2, hyne⟩ := List.mem_filter.mp hy
  obtain ⟨line, hline, rfl⟩ := List.mem_map.mp hy2
  refine ⟨?_, jsStrUp_idem _, ⟨line, hline, rfl⟩⟩
  intro hnil
  unfold jsStrUp at hnil
  rw [List.map_eq_nil_iff] at hnil
  rw [hnil] at hyne
  simp at hyne

/-- Witness for C7: the concrete success and failure responses. -/
theorem get_symbols_endpoint_spec_witness :
    handleGetSymbols (.ok "Symbol\nreliance\ntcs ".data)
      = { status := 200, error := none,
          symbols := ["RELIANCE".data, "TCS".data] }
    ∧ handleGetSymbols (.error ())
      = { status := 500, error := some symbolsLoadErrMsg, symbols := [] } :=
  ⟨get_symbols_endpoint_spec.2.2, get_symbols_endpoint_spec.2.1⟩

/-- C10: a readable file whose lines after the header are all blank
yields HTTP 200 with an empty symbols list; a readable file always
yields 200, and the 500 branch is taken only when the read throws. -/
theorem symbols_header_only_returns_200_empty :
    (∀ content : JsStr,
        (∀ line ∈ (jsSplit '\n' (jsTrim content)).drop 1, jsTrim line = []) →
        handleGetSymbols (.ok content)
          = { status := 200, error := none, symbols := [] })
    ∧ (∀ content : JsStr, (handleGetSymbols (.ok content)).status = 200)
    ∧ ∀ e : Unit, (handleGetSymbols (.error e)).status = 500 := by
  refine ⟨?_, fun content => rfl, fun e => rfl⟩
  intro content h
  have hempty : parseSymbolsCsv content = [] := by
    unfold parseSymbolsCsv
    rw [List.map_eq_nil_iff, List.filter_eq_nil_iff]
    intro a ha
    obtain ⟨line, hline, rfl⟩ := List.mem_map.mp ha
    simp [h line hline]
  have hok : handleGetSymbols (.ok content)
      = { status := 200, error := none, symbols := parseSymbolsCsv content } := rfl
  rw [hok, hempty]

/-- Witness for C10: a file holding a header row and one blank line. -/
theorem symbols_header_only_returns_200_empty_witness :
    handleGetSymbols (.ok "Symbol\n   \n".data)
      = { status := 200, error := none, symbols := [] } :=
  symbols_header_only_returns_200_empty.1 "Symbol\n   \n".data (by decide)
